import Mathlib

/-!
# SurveyForm.js — form state, validation ruleset and submission lifecycle

Shallow embedding of `src/components/SurveyForm.js`.

* JavaScript objects whose property values are strings (`values`, `errors`)
  are association lists in insertion order; a property that is missing reads
  as `none` (JavaScript `undefined`).
* A JavaScript string is modelled by a Lean `String` (a sequence of Unicode
  scalar values); `.length` counts UTF-16 code units, see `jsLength`.
* React state is an explicit record, every event handler is a function on
  that record followed by the effect of `useEffect`.
-/

namespace SurveyForm

/-! ## JavaScript objects with string-valued properties -/

/-- A JavaScript object with string-valued own properties, in insertion order. -/
abbrev JSObject := List (String × String)

namespace JSObject

/-- Property read `o[k]`; `none` stands for `undefined`. -/
def get : JSObject → String → Option String
  | [], _ => none
  | (k', v) :: rest, k => if k' = k then some v else get rest k

/-- Property write `o[k] = v`: an existing property keeps its position, a new
one is appended. -/
def set : JSObject → String → String → JSObject
  | [], k, v => [(k, v)]
  | (k', v') :: rest, k, v =>
    if k' = k then (k', v) :: rest else (k', v') :: set rest k v

/-- The own property names, `Object.keys(o)`. -/
def keys (o : JSObject) : List String := o.map Prod.fst

end JSObject

/-- JavaScript truthiness of a property that holds a string or is missing:
`undefined` and `''` are falsy, every other string is truthy. -/
def truthy : Option String → Bool
  | none => false
  | some s => s != ""

/-- The `.length` of a JavaScript string: the number of UTF-16 code units
(a character outside the Basic Multilingual Plane counts twice). -/
def jsLength (s : String) : Nat :=
  (s.data.map fun c => if c.toNat < 0x10000 then 1 else 2).sum

/-! ## White space and the regular expression of the email check -/

/-- The code points matched by `\s`, which are also the `StrWhiteSpaceChar`
of `StringToNumber`: WhiteSpace and LineTerminator of ECMAScript. -/
def isJSWhiteSpace (c : Char) : Bool :=
  let n := c.toNat
  n == 0x09 || n == 0x0A || n == 0x0B || n == 0x0C || n == 0x0D || n == 0x20 ||
  n == 0xA0 || n == 0x1680 || (0x2000 ≤ n && n ≤ 0x200A) || n == 0x2028 ||
  n == 0x2029 || n == 0x202F || n == 0x205F || n == 0x3000 || n == 0xFEFF

/-- Regular expressions over characters, with character classes as
predicates. -/
inductive RegExp where
  | fail : RegExp
  | empty : RegExp
  | cls : (Char → Bool) → RegExp
  | alt : RegExp → RegExp → RegExp
  | cat : RegExp → RegExp → RegExp
  | star : RegExp → RegExp

namespace RegExp

/-- One or more repetitions, `r+`. -/
def plus (r : RegExp) : RegExp := cat r (star r)

/-- A literal character. -/
def chr (c : Char) : RegExp := cls (fun d => d == c)

/-- Whether the expression matches the empty string. -/
def nullable : RegExp → Bool
  | fail => false
  | empty => true
  | cls _ => false
  | alt r s => nullable r || nullable s
  | cat r s => nullable r && nullable s
  | star _ => true

/-- Brzozowski derivative with respect to one character. -/
def deriv : RegExp → Char → RegExp
  | fail, _ => fail
  | empty, _ => fail
  | cls p, c => if p c then empty else fail
  | alt r s, c => alt (deriv r c) (deriv s c)
  | cat r s, c =>
    if nullable r then alt (cat (deriv r c) s) (deriv s c) else cat (deriv r c) s
  | star r, c => cat (deriv r c) (star r)

/-- Whether the expression matches the whole of `cs`. -/
def fullMatch : RegExp → List Char → Bool
  | r, [] => nullable r
  | r, c :: cs => fullMatch (deriv r c) cs

/-- Whether the expression matches some prefix of `cs`. -/
def prefixMatch : RegExp → List Char → Bool
  | r, [] => nullable r
  | r, c :: cs => nullable r || prefixMatch (deriv r c) cs

/-- Whether the expression matches starting at some position of `cs`. -/
def searchFrom : RegExp → List Char → Bool
  | r, [] => prefixMatch r []
  | r, c :: cs => prefixMatch r (c :: cs) || searchFrom r cs

/-- The method `RegExp.prototype.test` of a pattern without flags: the
pattern matches somewhere in the string. -/
def test (r : RegExp) (s : String) : Bool := searchFrom r s.data

end RegExp

/-- The class `\S`. -/
def nonSpace : RegExp := RegExp.cls (fun c => !isJSWhiteSpace c)

/-- The pattern `/\S+@\S+\.\S+/` of line 42. -/
def emailRegex : RegExp :=
  RegExp.cat (RegExp.plus nonSpace)
    (RegExp.cat (RegExp.chr '@')
      (RegExp.cat (RegExp.plus nonSpace)
        (RegExp.cat (RegExp.chr '.') (RegExp.plus nonSpace))))

/-! ## `StringToNumber`, `isNaN` and the comparison with zero -/

/-- The value of a string read as a `StringNumericLiteral`, before it is
rounded to a double: not a literal, a signed `Infinity`, or the signed
mathematical value `mant * 10 ^ exp`. -/
inductive NumLit where
  | nan : NumLit
  | infinity (neg : Bool) : NumLit
  | finite (neg : Bool) (mant : Nat) (exp : Int) : NumLit
  deriving DecidableEq, Repr

/-- Strips `StrWhiteSpace` at both ends. -/
def trimWS (cs : List Char) : List Char :=
  ((cs.dropWhile isJSWhiteSpace).reverse.dropWhile isJSWhiteSpace).reverse

/-- The value of a digit `0-9`, `a-f`, `A-F`. -/
def hexDigit (c : Char) : Option Nat :=
  let n := c.toNat
  if 48 ≤ n ∧ n ≤ 57 then some (n - 48)
  else if 97 ≤ n ∧ n ≤ 102 then some (n - 87)
  else if 65 ≤ n ∧ n ≤ 70 then some (n - 55)
  else none

/-- The value of a digit of the given base. -/
def digitIn (base : Nat) (c : Char) : Option Nat :=
  match hexDigit c with
  | some d => if d < base then some d else none
  | none => none

/-- Whether the character is a decimal digit. -/
def isDecDigit (c : Char) : Bool := (digitIn 10 c).isSome

/-- Reads digits of the given base, most significant first, onto `acc`. -/
def digitsFrom (base : Nat) : Nat → List Char → Option Nat
  | acc, [] => some acc
  | acc, c :: cs =>
    match digitIn base c with
    | some d => digitsFrom base (acc * base + d) cs
    | none => none

/-- A non-empty run of digits of the given base, and nothing else. -/
def parseDigits (base : Nat) (cs : List Char) : Option Nat :=
  if cs = [] then none else digitsFrom base 0 cs

/-- The production `NonDecimalIntegerLiteral`: `0b`, `0o` or `0x` (either
case) followed by digits of that base. -/
def parseNonDecimal : List Char → Option Nat
  | '0' :: p :: ds =>
    if p = 'b' ∨ p = 'B' then parseDigits 2 ds
    else if p = 'o' ∨ p = 'O' then parseDigits 8 ds
    else if p = 'x' ∨ p = 'X' then parseDigits 16 ds
    else none
  | _ => none

/-- The optional `ExponentPart` at the end of a decimal literal: absent
(value `0`), or `e`/`E`, an optional sign and decimal digits. -/
def parseExponent : List Char → Option Int
  | [] => some 0
  | c :: rest =>
    if c = 'e' ∨ c = 'E' then
      match rest with
      | '+' :: ds => (parseDigits 10 ds).map Int.ofNat
      | '-' :: ds => (parseDigits 10 ds).map fun n => - Int.ofNat n
      | ds => (parseDigits 10 ds).map Int.ofNat
    else none

/-- The production `StrUnsignedDecimalLiteral` without `Infinity`: digits
with an optional fraction and exponent, at least one digit before the
exponent. The result is the mantissa and the power of ten. -/
def parseUnsignedDecimal (cs : List Char) : Option (Nat × Int) :=
  let ip := cs.takeWhile isDecDigit
  match cs.dropWhile isDecDigit with
  | '.' :: r1 =>
    let fp := r1.takeWhile isDecDigit
    if ip = [] ∧ fp = [] then none
    else
      match parseExponent (r1.dropWhile isDecDigit), digitsFrom 10 0 (ip ++ fp) with
      | some e, some m => some (m, e - Int.ofNat fp.length)
      | _, _ => none
  | rest =>
    if ip = [] then none
    else
      match parseExponent rest, digitsFrom 10 0 ip with
      | some e, some m => some (m, e)
      | _, _ => none

/-- The production `StrUnsignedDecimalLiteral` with the sign already read. -/
def unsignedLit (neg : Bool) (cs : List Char) : NumLit :=
  if cs = "Infinity".data then NumLit.infinity neg
  else
    match parseUnsignedDecimal cs with
    | some (m, e) => NumLit.finite neg m e
    | none => NumLit.nan

/-- The abstract operation `StringToNumber` up to rounding: white space is
trimmed, the empty rest is `0`, a prefixed integer literal has no sign, a
decimal literal has an optional sign. -/
def stringToNumLit (s : String) : NumLit :=
  let cs := trimWS s.data
  if cs = [] then NumLit.finite false 0 0
  else
    match parseNonDecimal cs with
    | some n => NumLit.finite false n 0
    | none =>
      match cs with
      | '+' :: r => unsignedLit false r
      | '-' :: r => unsignedLit true r
      | _ => unsignedLit false cs

/-- The operation `ToNumber` on a property that holds a string or is
missing: `undefined` gives `NaN`. -/
def toNumLit : Option String → NumLit
  | none => NumLit.nan
  | some s => stringToNumLit s

/-- Whether the non-negative value `m * 10 ^ e` rounds to the double `0`
(round to nearest, ties to even): it is at most `2 ^ (-1075)`, half of the
least positive double. -/
def roundsToZero (m : Nat) (e : Int) : Bool :=
  m == 0 || (decide (e < 0) && decide (m * 2 ^ 1075 ≤ 10 ^ (-e).toNat))

namespace NumLit

/-- The global function `isNaN` on the double of the literal. -/
def isNaN : NumLit → Bool
  | nan => true
  | _ => false

/-- The comparison `x <= 0` on the double of the literal: false on `NaN`,
true on `-Infinity`, on both zeros and on every negative value. -/
def leZero : NumLit → Bool
  | nan => false
  | infinity neg => neg
  | finite neg m e => neg || roundsToZero m e

/-- The comparison `x > 0` on the double of the literal. -/
def gtZero : NumLit → Bool
  | nan => false
  | infinity neg => !neg
  | finite neg m e => !neg && !roundsToZero m e

end NumLit

/-! ## `validate` -/

/-- The operation `ToString` on a property that holds a string or is missing. -/
def toStr : Option String → String
  | none => "undefined"
  | some s => s

/-- The `.length` of a property that holds a string. `validate` reads it only
behind a truthiness test, where the property is a string. -/
def lengthOf : Option String → Nat
  | none => 0
  | some s => jsLength s

/-- The function `validate` of lines 33-86. -/
def validate (values : JSObject) : JSObject :=
  let errors : JSObject := []
  let errors :=
    if !truthy (values.get "fullName") then
      errors.set "fullName" "Full Name is required"
    else errors
  let errors :=
    if !truthy (values.get "email") then
      errors.set "email" "Email is required"
    else if !emailRegex.test (toStr (values.get "email")) then
      errors.set "email" "Email is invalid"
    else errors
  let errors :=
    if !truthy (values.get "surveyTopic") then
      errors.set "surveyTopic" "Survey Topic is required"
    else errors
  let errors :=
    if values.get "surveyTopic" = some "Technology" then
      let errors :=
        if !truthy (values.get "favoriteLanguage") then
          errors.set "favoriteLanguage" "Favorite Programming Language is required"
        else errors
      if !truthy (values.get "yearsOfExperience") then
        errors.set "yearsOfExperience" "Years of Experience is required"
      else if (toNumLit (values.get "yearsOfExperience")).isNaN ||
          (toNumLit (values.get "yearsOfExperience")).leZero then
        errors.set "yearsOfExperience" "Years of Experience must be a positive number"
      else errors
    else errors
  let errors :=
    if values.get "surveyTopic" = some "Health" then
      let errors :=
        if !truthy (values.get "exerciseFrequency") then
          errors.set "exerciseFrequency" "Exercise Frequency is required"
        else errors
      if !truthy (values.get "dietPreference") then
        errors.set "dietPreference" "Diet Preference is required"
      else errors
    else errors
  let errors :=
    if values.get "surveyTopic" = some "Education" then
      let errors :=
        if !truthy (values.get "highestQualification") then
          errors.set "highestQualification" "Highest Qualification is required"
        else errors
      if !truthy (values.get "fieldOfStudy") then
        errors.set "fieldOfStudy" "Field of Study is required"
      else errors
    else errors
  let errors :=
    if !truthy (values.get "feedback") then
      errors.set "feedback" "Feedback is required"
    else if lengthOf (values.get "feedback") < 10 then
      errors.set "feedback" "Feedback must be at least 10 characters long"
    else errors
  errors

/-! ## Vocabulary of the rules -/

/-- A field is non-empty: it holds a string other than `''`. -/
def Filled (o : Option String) : Prop := ∃ s, o = some s ∧ s ≠ ""

/-- A field holds a string of at least `n` UTF-16 code units. -/
def HasLengthAtLeast (o : Option String) (n : Nat) : Prop :=
  ∃ s, o = some s ∧ n ≤ jsLength s

/-- Every key of the object satisfies the predicate. -/
def KeysWithin (allowed : String → Prop) (o : JSObject) : Prop :=
  ∀ k ∈ JSObject.keys o, allowed k

/-- The language of a regular expression: `Matches r cs` when `r` matches
exactly the characters `cs`. -/
inductive Matches : RegExp → List Char → Prop
  | empty : Matches RegExp.empty []
  | cls (p : Char → Bool) (c : Char) : p c = true → Matches (RegExp.cls p) [c]
  | altLeft (r s : RegExp) (cs : List Char) : Matches r cs → Matches (RegExp.alt r s) cs
  | altRight (r s : RegExp) (cs : List Char) : Matches s cs → Matches (RegExp.alt r s) cs
  | cat (r s : RegExp) (u v : List Char) :
      Matches r u → Matches s v → Matches (RegExp.cat r s) (u ++ v)
  | starNil (r : RegExp) : Matches (RegExp.star r) []
  | starCons (r : RegExp) (u v : List Char) :
      Matches r u → Matches (RegExp.star r) v → Matches (RegExp.star r) (u ++ v)

/-- A non-empty run of characters none of which is white space. -/
def NonSpaceRun (cs : List Char) : Prop :=
  cs ≠ [] ∧ ∀ c ∈ cs, isJSWhiteSpace c = false

/-- The shape `<non-space>+@<non-space>+.<non-space>+`: `cs` is a non-space
run, `@`, a non-space run, `.`, a non-space run. -/
def EmailShape (cs : List Char) : Prop :=
  ∃ a b c, cs = a ++ '@' :: (b ++ '.' :: c) ∧ NonSpaceRun a ∧ NonSpaceRun b ∧ NonSpaceRun c

/-- Some contiguous part of `cs` has the shape `EmailShape`. -/
def ContainsEmailShape (cs : List Char) : Prop :=
  ∃ pre mid post, cs = pre ++ mid ++ post ∧ EmailShape mid

/-! ## `useForm` -/

/-- The state of the hook `useForm`: `values`, `errors`, and the identity of
the object held in `values` (the number of objects `handleChange` has created;
React compares state and effect dependencies with `Object.is`). -/
structure FormState where
  values : JSObject
  valuesRef : Nat
  errors : JSObject
  deriving DecidableEq, Repr

/-- The argument `initialValues` of `useForm`, lines 94-105. -/
def initialValues : JSObject :=
  [("fullName", ""), ("email", ""), ("surveyTopic", ""), ("favoriteLanguage", ""),
   ("yearsOfExperience", ""), ("exerciseFrequency", ""), ("dietPreference", ""),
   ("highestQualification", ""), ("fieldOfStudy", ""), ("feedback", "")]

/-- The state of `useForm(initialValues, validate)` at mount. -/
def initialForm : FormState :=
  { values := initialValues, valuesRef := 0, errors := [] }

/-- The handler `handleChange` of lines 7-13 on the event target's `name` and
`value`: a fresh object, the spread of `values` with one property set. -/
def handleChange (f : FormState) (name value : String) : FormState :=
  { f with values := f.values.set name value, valuesRef := f.valuesRef + 1 }

/-- The handler `handleSubmit` of lines 15-24: the new state and the returned
boolean. -/
def handleSubmit (f : FormState) : FormState × Bool :=
  let validationErrors := validate f.values
  ({ f with errors := validationErrors }, validationErrors.keys.length == 0)

/-- The events of the form alone. -/
inductive FormEvent where
  | change (name value : String) : FormEvent
  | submit : FormEvent
  deriving DecidableEq, Repr

/-- One event on the state of `useForm`. -/
def formStep (f : FormState) : FormEvent → FormState
  | FormEvent.change name value => handleChange f name value
  | FormEvent.submit => (handleSubmit f).1

/-- A sequence of events on the state of `useForm`, oldest first. -/
def formRun (f : FormState) (es : List FormEvent) : FormState :=
  es.foldl formStep f

/-! ## `SurveyForm`: submission, enrichment fetch and popup -/

/-- The state of the component `SurveyForm`: the form, the three `useState`
cells of lines 108-110, and the topics of the requests of
`fetchAdditionalQuestions` that have not settled yet, oldest first.
`submittedData` carries the identity of the object next to its content. -/
structure State where
  form : FormState
  additionalQuestions : List String
  submittedData : Option (Nat × JSObject)
  isPopupOpen : Bool
  pending : List String
  deriving DecidableEq, Repr

/-- The component at mount. -/
def initialState : State :=
  { form := initialForm, additionalQuestions := [], submittedData := none,
    isPopupOpen := false, pending := [] }

/-- The effect of lines 112-121, run after a render whose previous
`submittedData` was `prev`: when the dependency changed (`Object.is`) and a
snapshot is held, a request for the snapshot's `surveyTopic` is issued. -/
def runEffect (prev : Option (Nat × JSObject)) (s : State) : State :=
  if s.submittedData.map Prod.fst = prev.map Prod.fst then s
  else
    match s.submittedData with
    | some d => { s with pending := s.pending ++ [toStr (d.2.get "surveyTopic")] }
    | none => s

/-- The handler `onSubmit` of lines 123-128, followed by the effect. -/
def onSubmit (s : State) : State :=
  let r := handleSubmit s.form
  let s1 : State := { s with form := r.1 }
  let s2 : State :=
    if r.2 then { s1 with submittedData := some (s.form.valuesRef, s.form.values) }
    else s1
  runEffect s.submittedData s2

/-- The handler `closePopup` of lines 129-132, followed by the effect. -/
def closePopup (s : State) : State :=
  runEffect s.submittedData { s with isPopupOpen := false, submittedData := none }

/-- The continuation of `fetchQuestions` after the `await`, lines 116-117, for
the request at position `i` of `pending` resolving with `questions`. -/
def fetchResolved (s : State) (i : Nat) (questions : List String) : State :=
  if i < s.pending.length then
    { s with additionalQuestions := questions, isPopupOpen := true,
             pending := s.pending.eraseIdx i }
  else s

/-- The request at position `i` of `pending` is rejected: the promise of
`fetchQuestions` rejects and no state is set. -/
def fetchRejected (s : State) (i : Nat) : State :=
  { s with pending := s.pending.eraseIdx i }

/-- The events of the component. -/
inductive Event where
  | change (name value : String) : Event
  | submit : Event
  | closePopup : Event
  | fetchResolved (i : Nat) (questions : List String) : Event
  | fetchRejected (i : Nat) : Event
  deriving DecidableEq, Repr

/-- One event on the component. The Close button exists only while the popup
is rendered, so `closePopup` is taken only when `isPopupOpen`. -/
def step (s : State) : Event → State
  | Event.change name value => { s with form := handleChange s.form name value }
  | Event.submit => onSubmit s
  | Event.closePopup => if s.isPopupOpen then closePopup s else s
  | Event.fetchResolved i questions => fetchResolved s i questions
  | Event.fetchRejected i => fetchRejected s i

/-- A sequence of events on the component, oldest first. -/
def run (s : State) (es : List Event) : State :=
  es.foldl step s

/-- The popup of lines 235-276: nothing is shown while `isPopupOpen` is false,
otherwise the fields of `submittedData` are read; reading them from `null`
throws a TypeError, which is the outer `none`. -/
def renderPopup (s : State) : Option (Option JSObject) :=
  if s.isPopupOpen then
    match s.submittedData with
    | some d => some (some d.2)
    | none => none
  else some none

/-! ## Sample traces -/

/-- The edits that fill in a valid form with topic "Health". -/
def fillHealthForm : List Event :=
  [Event.change "fullName" "A", Event.change "email" "a@b.com",
   Event.change "surveyTopic" "Health", Event.change "exerciseFrequency" "Daily",
   Event.change "dietPreference" "Vegan", Event.change "feedback" "1234567890"]

/-- The component after a valid Health form was filled in and submitted once. -/
def submittedOnce : State := run initialState (fillHealthForm ++ [Event.submit])

/-- The component after the request of `submittedOnce` resolved with one
question and the popup is shown. -/
def popupShown : State := fetchResolved submittedOnce 0 ["Q1"]

/-- Two submits with an edit in between, the first request resolves, the
popup is closed, then the second request resolves. -/
def staleFetchTrace : List Event :=
  fillHealthForm ++
    [Event.submit, Event.change "fullName" "B", Event.submit,
     Event.fetchResolved 0 ["Q1"], Event.closePopup, Event.fetchResolved 0 ["Q2"]]

/-! ## Lemmas on objects -/

namespace JSObject

theorem get_nil (k : String) : get [] k = none := rfl

theorem get_set (o : JSObject) (k k' v : String) :
    get (set o k v) k' = if k = k' then some v else get o k' := by
  induction o with
  | nil =>
    by_cases h : k = k' <;> simp [set, get, h]
  | cons p rest ih =>
    obtain ⟨a, b⟩ := p
    by_cases h1 : a = k
    · by_cases h2 : k = k'
      · simp [set, get, h1, h2]
      · simp [set, get, h1, h2]
    · by_cases h2 : k = k'
      · subst h2
        simp [set, get, h1, ih]
      · by_cases h3 : a = k'
        · subst h3
          simp [set, get, h1, h2]
        · simp [set, get, h1, h2, h3, ih]

theorem set_ne_nil (o : JSObject) (k v : String) : set o k v ≠ [] := by
  cases o with
  | nil => simp [set]
  | cons p rest =>
    obtain ⟨a, b⟩ := p
    by_cases h : a = k <;> simp [set, h]

theorem get_ite (c : Prop) [Decidable c] (a b : JSObject) (k : String) :
    get (if c then a else b) k = if c then get a k else get b k := by
  split <;> rfl

end JSObject

/-! ## The number model -/

theorem scaled_le_iff (m p k : Nat) :
    m * 2 ^ p ≤ 10 ^ k ↔ (m : ℚ) * ((10 : ℚ) ^ k)⁻¹ ≤ ((2 : ℚ) ^ p)⁻¹ := by
  have h10 : (0 : ℚ) < (10 : ℚ) ^ k := by positivity
  have h2 : (0 : ℚ) < (2 : ℚ) ^ p := by positivity
  rw [← div_eq_mul_inv, div_le_iff₀ h10, ← div_eq_inv_mul, le_div_iff₀ h2]
  constructor
  · intro h
    exact_mod_cast h
  · intro h
    exact_mod_cast h

/-- The test `roundsToZero` is the comparison of the exact value with half of
the least positive double. -/
theorem roundsToZero_iff (m : Nat) (e : Int) :
    roundsToZero m e = true ↔ (m : ℚ) * (10 : ℚ) ^ e ≤ ((2 : ℚ) ^ 1075)⁻¹ := by
  unfold roundsToZero
  by_cases hm : m = 0
  · subst hm
    simp only [beq_self_eq_true, Bool.true_or, Nat.cast_zero, zero_mul, true_iff]
    positivity
  · have hm1 : (1 : ℚ) ≤ (m : ℚ) := by exact_mod_cast Nat.one_le_iff_ne_zero.2 hm
    have hb : (m == 0) = false := by simp [hm]
    by_cases he : e < 0
    · obtain ⟨k, rfl⟩ : ∃ k : Nat, e = -(k : ℤ) := ⟨(-e).toNat, by omega⟩
      simp only [hb, he, decide_True, Bool.true_and, Bool.false_or, neg_neg,
        Int.toNat_ofNat, decide_eq_true_eq, zpow_neg, zpow_natCast]
      exact scaled_le_iff m 1075 k
    · have he' : 0 ≤ e := by omega
      simp only [hb, he, decide_False, Bool.false_and, Bool.or_self,
        Bool.false_eq_true, false_iff, not_le]
      have h1 : (1 : ℚ) ≤ (10 : ℚ) ^ e := one_le_zpow₀ (by norm_num) he'
      have h2 : ((2 : ℚ) ^ 1075)⁻¹ < 1 := by
        apply inv_lt_one_of_one_lt₀
        exact one_lt_pow₀ (by norm_num) (by norm_num)
      calc ((2 : ℚ) ^ 1075)⁻¹ < 1 := h2
        _ = 1 * 1 := by ring
        _ ≤ (m : ℚ) * (10 : ℚ) ^ e := mul_le_mul hm1 h1 (by norm_num) (by positivity)

/-- Sample readings of `StringToNumber`. -/
theorem stringToNumLit_samples :
    stringToNumLit "0" = NumLit.finite false 0 0 ∧
    stringToNumLit " 12.50e-1 " = NumLit.finite false 1250 (-3) ∧
    stringToNumLit "0x1F" = NumLit.finite false 31 0 ∧
    stringToNumLit "-Infinity" = NumLit.infinity true ∧
    stringToNumLit "1." = NumLit.finite false 1 0 ∧
    stringToNumLit ".5" = NumLit.finite false 5 (-1) ∧
    stringToNumLit "   " = NumLit.finite false 0 0 ∧
    stringToNumLit "." = NumLit.nan ∧
    stringToNumLit "abc" = NumLit.nan ∧
    stringToNumLit "+0x10" = NumLit.nan ∧
    stringToNumLit "1e" = NumLit.nan := by
  decide

/-- Sample comparisons with zero: `-1`, `0` and the empty rest are at most
zero, `3` and `Infinity` are greater, `abc` is `NaN`. -/
theorem leZero_samples :
    (stringToNumLit "-1").leZero = true ∧ (stringToNumLit "0").leZero = true ∧
    (stringToNumLit " ").leZero = true ∧ (stringToNumLit "-0.0").leZero = true ∧
    (stringToNumLit "3").gtZero = true ∧ (stringToNumLit "Infinity").gtZero = true ∧
    (stringToNumLit "abc").isNaN = true ∧ (stringToNumLit "abc").leZero = false := by
  decide

/-! ## Lemmas on `validate` -/

theorem validate_get_feedback (values : JSObject) :
    (validate values).get "feedback" =
      if truthy (values.get "feedback") = false then some "Feedback is required"
      else if lengthOf (values.get "feedback") < 10 then
        some "Feedback must be at least 10 characters long"
      else none := by
  simp [validate, JSObject.get_ite, JSObject.get_set, JSObject.get_nil]

theorem validate_get_email (values : JSObject) :
    (validate values).get "email" =
      if truthy (values.get "email") = false then some "Email is required"
      else if emailRegex.test (toStr (values.get "email")) = false then
        some "Email is invalid"
      else none := by
  simp [validate, JSObject.get_ite, JSObject.get_set, JSObject.get_nil]

theorem validate_get_yearsOfExperience (values : JSObject) :
    (validate values).get "yearsOfExperience" =
      if values.get "surveyTopic" = some "Technology" then
        if truthy (values.get "yearsOfExperience") = false then
          some "Years of Experience is required"
        else if (toNumLit (values.get "yearsOfExperience")).isNaN = true ∨
            (toNumLit (values.get "yearsOfExperience")).leZero = true then
          some "Years of Experience must be a positive number"
        else none
      else none := by
  simp [validate, JSObject.get_ite, JSObject.get_set, JSObject.get_nil]

theorem JSObject.set_eq_nil (o : JSObject) (k v : String) : (JSObject.set o k v = []) ↔ False :=
  iff_false_intro (JSObject.set_ne_nil o k v)

theorem JSObject.ite_set_eq_nil (c : Prop) [Decidable c] (o : JSObject) (k v : String) :
    ((if c then JSObject.set o k v else o) = []) ↔ ¬ c ∧ o = [] := by
  split <;> simp [*, JSObject.set_eq_nil]

theorem JSObject.ite_set_ite_set_eq_nil (c c' : Prop) [Decidable c] [Decidable c']
    (o : JSObject) (k v k' v' : String) :
    ((if c then JSObject.set o k v else if c' then JSObject.set o k' v' else o) = []) ↔
      ¬ c ∧ ¬ c' ∧ o = [] := by
  split <;> [skip; split] <;> simp [*, JSObject.set_eq_nil]

theorem JSObject.ite_topic_eq_nil (x : Option String) (y : String) (a b : JSObject) :
    ((if x = some y then a else b) = []) ↔ (x = some y → a = []) ∧ (¬ x = some y → b = []) := by
  split <;> simp [*]

theorem truthy_iff (o : Option String) : truthy o = true ↔ Filled o := by
  cases o with
  | none => simp [truthy, Filled]
  | some s => simp [truthy, Filled]

theorem truthy_false_iff (o : Option String) : truthy o = false ↔ ¬ Filled o := by
  rw [← truthy_iff]; simp

theorem jsLength_empty : jsLength "" = 0 := rfl

theorem filled_and_length_iff (o : Option String) (n : Nat) (hn : 0 < n) :
    (Filled o ∧ ¬ lengthOf o < n) ↔ HasLengthAtLeast o n := by
  cases o with
  | none => simp [Filled, HasLengthAtLeast]
  | some s =>
    simp only [Filled, HasLengthAtLeast, lengthOf, Option.some.injEq, exists_eq_left', not_lt]
    constructor
    · exact fun h => h.2
    · intro h
      refine ⟨?_, h⟩
      intro hs
      rw [hs, jsLength_empty] at h
      omega

theorem NumLit.gtZero_iff (n : NumLit) :
    n.gtZero = true ↔ n.isNaN = false ∧ n.leZero = false := by
  cases n <;> simp [NumLit.gtZero, NumLit.isNaN, NumLit.leZero]

theorem validate_eq_nil_iff (values : JSObject) :
    validate values = [] ↔
      Filled (values.get "fullName") ∧
      (Filled (values.get "email") ∧ emailRegex.test (toStr (values.get "email")) = true) ∧
      Filled (values.get "surveyTopic") ∧
      (values.get "surveyTopic" = some "Technology" →
        Filled (values.get "favoriteLanguage") ∧ Filled (values.get "yearsOfExperience") ∧
        (toNumLit (values.get "yearsOfExperience")).isNaN = false ∧
        (toNumLit (values.get "yearsOfExperience")).gtZero = true) ∧
      (values.get "surveyTopic" = some "Health" →
        Filled (values.get "exerciseFrequency") ∧ Filled (values.get "dietPreference")) ∧
      (values.get "surveyTopic" = some "Education" →
        Filled (values.get "highestQualification") ∧ Filled (values.get "fieldOfStudy")) ∧
      HasLengthAtLeast (values.get "feedback") 10 := by
  rw [← filled_and_length_iff _ 10 (by decide)]
  simp only [validate, JSObject.ite_set_eq_nil, JSObject.ite_set_ite_set_eq_nil,
    JSObject.ite_topic_eq_nil, true_and, and_true, NumLit.gtZero_iff, ← truthy_iff,
    Bool.not_eq_true', Bool.not_eq_false, Bool.or_eq_true, not_or, Bool.not_eq_true]
  by_cases hT : values.get "surveyTopic" = some "Technology"
  · simp only [hT, true_implies, not_true_eq_false, false_implies, and_true, true_and,
      Option.some.injEq, String.reduceEq]
    tauto
  · by_cases hH : values.get "surveyTopic" = some "Health"
    · simp only [hH, true_implies, not_true_eq_false, false_implies, and_true, true_and,
        Option.some.injEq, String.reduceEq, not_false_eq_true]
      tauto
    · by_cases hE : values.get "surveyTopic" = some "Education"
      · simp only [hE, true_implies, not_true_eq_false, false_implies, and_true, true_and,
          Option.some.injEq, String.reduceEq, not_false_eq_true]
        tauto
      · simp only [hT, hH, hE, true_implies, not_true_eq_false, false_implies, and_true,
          true_and, not_false_eq_true]
        tauto

theorem JSObject.mem_keys_set (o : JSObject) (k v k' : String) :
    k' ∈ JSObject.keys (JSObject.set o k v) ↔ k' = k ∨ k' ∈ JSObject.keys o := by
  induction o with
  | nil => simp [JSObject.set, JSObject.keys]
  | cons p rest ih =>
    obtain ⟨a, b⟩ := p
    by_cases h : a = k
    · subst h
      simp [JSObject.set, JSObject.keys]
    · simp only [JSObject.keys] at ih
      simp only [JSObject.set, h, if_false, JSObject.keys, List.map_cons, List.mem_cons, ih]
      tauto

theorem keysWithin_nil (allowed : String → Prop) : KeysWithin allowed [] := by
  intro k hk
  simp [JSObject.keys] at hk

theorem keysWithin_set {allowed : String → Prop} {o : JSObject} (k v : String)
    (h : KeysWithin allowed o) (hk : allowed k) : KeysWithin allowed (JSObject.set o k v) := by
  intro k' hk'
  rcases (JSObject.mem_keys_set o k v k').1 hk' with h1 | h1
  · exact h1 ▸ hk
  · exact h k' h1

theorem keysWithin_ite_set {allowed : String → Prop} {o : JSObject} (c : Prop) [Decidable c]
    (k v : String) (h : KeysWithin allowed o) (hk : c → allowed k) :
    KeysWithin allowed (if c then JSObject.set o k v else o) := by
  split
  · exact keysWithin_set k v h (hk (by assumption))
  · exact h

theorem keysWithin_ite_set_ite_set {allowed : String → Prop} {o : JSObject} (c c' : Prop)
    [Decidable c] [Decidable c'] (k v k' v' : String) (h : KeysWithin allowed o)
    (hk : c → allowed k) (hk' : c' → allowed k') :
    KeysWithin allowed
      (if c then JSObject.set o k v else if c' then JSObject.set o k' v' else o) := by
  split
  · exact keysWithin_set k v h (hk (by assumption))
  · exact keysWithin_ite_set c' k' v' h hk'

theorem keysWithin_block {allowed : String → Prop} {o x : JSObject} (c : Prop) [Decidable c]
    (hx : c → KeysWithin allowed x) (h : KeysWithin allowed o) :
    KeysWithin allowed (if c then x else o) := by
  split
  · exact hx (by assumption)
  · exact h

theorem validate_keys (values : JSObject) (k : String) (hk : k ∈ (validate values).keys) :
    k ∈ ["fullName", "email", "surveyTopic", "feedback"] ∨
    (values.get "surveyTopic" = some "Technology" ∧
      k ∈ ["favoriteLanguage", "yearsOfExperience"]) ∨
    (values.get "surveyTopic" = some "Health" ∧
      k ∈ ["exerciseFrequency", "dietPreference"]) ∨
    (values.get "surveyTopic" = some "Education" ∧
      k ∈ ["highestQualification", "fieldOfStudy"]) := by
  revert k
  show KeysWithin _ (validate values)
  unfold validate
  repeat' first
    | exact keysWithin_nil _
    | refine keysWithin_ite_set_ite_set _ _ _ _ _ _ ?_ (fun _ => ?_) (fun _ => ?_)
    | refine keysWithin_ite_set _ _ _ ?_ (fun _ => ?_)
    | refine keysWithin_block _ (fun _ => ?_) ?_
    | simp_all

/-! ## The matcher computes the language -/

theorem Matches.cat_iff (r s : RegExp) (cs : List Char) :
    Matches (RegExp.cat r s) cs ↔ ∃ u v, cs = u ++ v ∧ Matches r u ∧ Matches s v := by
  constructor
  · intro h
    cases h with
    | cat _ _ u v hu hv => exact ⟨u, v, rfl, hu, hv⟩
  · rintro ⟨u, v, rfl, hu, hv⟩
    exact Matches.cat r s u v hu hv

theorem Matches.alt_iff (r s : RegExp) (cs : List Char) :
    Matches (RegExp.alt r s) cs ↔ Matches r cs ∨ Matches s cs := by
  constructor
  · intro h
    cases h with
    | altLeft _ _ _ h => exact Or.inl h
    | altRight _ _ _ h => exact Or.inr h
  · rintro (h | h)
    · exact Matches.altLeft r s cs h
    · exact Matches.altRight r s cs h

theorem Matches.cls_iff (p : Char → Bool) (cs : List Char) :
    Matches (RegExp.cls p) cs ↔ ∃ c, cs = [c] ∧ p c = true := by
  constructor
  · intro h
    cases h with
    | cls _ c hc => exact ⟨c, rfl, hc⟩
  · rintro ⟨c, rfl, hc⟩
    exact Matches.cls p c hc

theorem Matches.empty_iff (cs : List Char) : Matches RegExp.empty cs ↔ cs = [] := by
  constructor
  · intro h
    cases h
    rfl
  · rintro rfl
    exact Matches.empty

theorem Matches.not_fail (cs : List Char) : ¬ Matches RegExp.fail cs := by
  intro h
  cases h

theorem Matches.star_cons_inv (r : RegExp) (c : Char) (cs : List Char)
    (h : Matches (RegExp.star r) (c :: cs)) :
    ∃ u v, cs = u ++ v ∧ Matches r (c :: u) ∧ Matches (RegExp.star r) v := by
  generalize hx : RegExp.star r = x at h
  generalize hy : c :: cs = y at h
  induction h with
  | empty => cases hx
  | cls _ _ _ => cases hx
  | altLeft _ _ _ _ _ => cases hx
  | altRight _ _ _ _ _ => cases hx
  | cat _ _ _ _ _ _ _ _ => cases hx
  | starNil _ => cases hy
  | starCons r' u v hu hv _ ihv =>
    cases hx
    cases u with
    | nil => exact ihv rfl hy
    | cons d u' =>
      simp only [List.cons_append, List.cons.injEq] at hy
      obtain ⟨rfl, rfl⟩ := hy
      exact ⟨u', v, rfl, hu, hv⟩

theorem nullable_iff (r : RegExp) : r.nullable = true ↔ Matches r [] := by
  induction r with
  | fail => simp [RegExp.nullable, Matches.not_fail]
  | empty => simp [RegExp.nullable, Matches.empty_iff]
  | cls p => simp [RegExp.nullable, Matches.cls_iff]
  | alt r s ihr ihs => simp [RegExp.nullable, Matches.alt_iff, ihr, ihs]
  | cat r s ihr ihs =>
    simp only [RegExp.nullable, Bool.and_eq_true, ihr, ihs, Matches.cat_iff]
    constructor
    · rintro ⟨h1, h2⟩
      exact ⟨[], [], rfl, h1, h2⟩
    · rintro ⟨u, v, h, h1, h2⟩
      have hu : u = [] := (List.append_eq_nil.1 h.symm).1
      have hv : v = [] := (List.append_eq_nil.1 h.symm).2
      subst hu hv
      exact ⟨h1, h2⟩
  | star r _ => simp [RegExp.nullable, Matches.starNil]

theorem deriv_iff (r : RegExp) (c : Char) (cs : List Char) :
    Matches (r.deriv c) cs ↔ Matches r (c :: cs) := by
  induction r generalizing cs with
  | fail => simp [RegExp.deriv, Matches.not_fail]
  | empty => simp [RegExp.deriv, Matches.not_fail, Matches.empty_iff]
  | cls p =>
    by_cases hp : p c = true
    · simp only [RegExp.deriv, hp, if_true, Matches.empty_iff, Matches.cls_iff]
      constructor
      · rintro rfl
        exact ⟨c, rfl, hp⟩
      · rintro ⟨d, h, _⟩
        simp only [List.cons.injEq] at h
        exact h.2
    · simp only [RegExp.deriv, hp, Bool.false_eq_true, if_false, Matches.not_fail,
        Matches.cls_iff, false_iff]
      rintro ⟨d, h, hd⟩
      simp only [List.cons.injEq] at h
      rw [← h.1] at hd
      exact hp hd
  | alt r s ihr ihs => simp [RegExp.deriv, Matches.alt_iff, ihr, ihs]
  | cat r s ihr ihs =>
    have key : (Matches (RegExp.cat (r.deriv c) s) cs ∨ (Matches r [] ∧ Matches s (c :: cs))) ↔
        Matches (RegExp.cat r s) (c :: cs) := by
      simp only [Matches.cat_iff, ihr]
      constructor
      · rintro (⟨u, v, rfl, hu, hv⟩ | ⟨h1, h2⟩)
        · exact ⟨c :: u, v, rfl, hu, hv⟩
        · exact ⟨[], c :: cs, rfl, h1, h2⟩
      · rintro ⟨u, v, h, hu, hv⟩
        cases u with
        | nil =>
          simp only [List.nil_append] at h
          subst h
          exact Or.inr ⟨hu, hv⟩
        | cons d u' =>
          simp only [List.cons_append, List.cons.injEq] at h
          obtain ⟨rfl, rfl⟩ := h
          exact Or.inl ⟨u', v, rfl, hu, hv⟩
    by_cases hn : r.nullable = true
    · simp only [RegExp.deriv, hn, if_true, Matches.alt_iff, ihs]
      rw [← key]
      simp [(nullable_iff r).1 hn]
    · simp only [RegExp.deriv, hn, Bool.false_eq_true, if_false]
      rw [← key]
      simp [← nullable_iff, hn]
  | star r ih =>
    simp only [RegExp.deriv, Matches.cat_iff, ih]
    constructor
    · rintro ⟨u, v, rfl, hu, hv⟩
      exact Matches.starCons r (c :: u) v hu hv
    · intro h
      exact Matches.star_cons_inv r c cs h

theorem fullMatch_iff (r : RegExp) (cs : List Char) :
    r.fullMatch cs = true ↔ Matches r cs := by
  induction cs generalizing r with
  | nil => simp [RegExp.fullMatch, nullable_iff]
  | cons c cs ih => simp [RegExp.fullMatch, ih, deriv_iff]

theorem prefixMatch_iff (r : RegExp) (cs : List Char) :
    r.prefixMatch cs = true ↔ ∃ u v, cs = u ++ v ∧ Matches r u := by
  induction cs generalizing r with
  | nil =>
    simp only [RegExp.prefixMatch, nullable_iff]
    constructor
    · intro h
      exact ⟨[], [], rfl, h⟩
    · rintro ⟨u, v, h, hu⟩
      have hu0 : u = [] := (List.append_eq_nil.1 h.symm).1
      subst hu0
      exact hu
  | cons c cs ih =>
    simp only [RegExp.prefixMatch, Bool.or_eq_true, nullable_iff, ih, deriv_iff]
    constructor
    · rintro (h | ⟨u, v, rfl, hu⟩)
      · exact ⟨[], c :: cs, rfl, h⟩
      · exact ⟨c :: u, v, rfl, hu⟩
    · rintro ⟨u, v, h, hu⟩
      cases u with
      | nil => exact Or.inl hu
      | cons d u' =>
        simp only [List.cons_append, List.cons.injEq] at h
        obtain ⟨rfl, rfl⟩ := h
        exact Or.inr ⟨u', v, rfl, hu⟩

theorem searchFrom_iff (r : RegExp) (cs : List Char) :
    r.searchFrom cs = true ↔ ∃ pre mid post, cs = pre ++ mid ++ post ∧ Matches r mid := by
  induction cs with
  | nil =>
    simp only [RegExp.searchFrom, prefixMatch_iff]
    constructor
    · rintro ⟨u, v, h, hu⟩
      exact ⟨[], u, v, by simpa using h, hu⟩
    · rintro ⟨pre, mid, post, h, hm⟩
      have h1 : pre ++ mid = [] := (List.append_eq_nil.1 h.symm).1
      have h2 : mid = [] := (List.append_eq_nil.1 h1).2
      subst h2
      exact ⟨[], [], rfl, hm⟩
  | cons c cs ih =>
    simp only [RegExp.searchFrom, Bool.or_eq_true, prefixMatch_iff, ih]
    constructor
    · rintro (⟨u, v, h, hu⟩ | ⟨pre, mid, post, rfl, hm⟩)
      · exact ⟨[], u, v, by simpa using h, hu⟩
      · exact ⟨c :: pre, mid, post, rfl, hm⟩
    · rintro ⟨pre, mid, post, h, hm⟩
      cases pre with
      | nil => exact Or.inl ⟨mid, post, by simpa using h, hm⟩
      | cons d pre' =>
        simp only [List.cons_append, List.cons.injEq] at h
        obtain ⟨rfl, rfl⟩ := h
        exact Or.inr ⟨pre', mid, post, rfl, hm⟩

theorem Matches.star_cls_iff (p : Char → Bool) (cs : List Char) :
    Matches (RegExp.star (RegExp.cls p)) cs ↔ ∀ c ∈ cs, p c = true := by
  induction cs with
  | nil => simp [Matches.starNil]
  | cons c cs ih =>
    constructor
    · intro h
      obtain ⟨u, v, huv, hu, hv⟩ := Matches.star_cons_inv _ c cs h
      obtain ⟨d, hd, hpd⟩ := (Matches.cls_iff p (c :: u)).1 hu
      simp only [List.cons.injEq] at hd
      obtain ⟨rfl, rfl⟩ := hd
      simp only [List.nil_append] at huv
      subst huv
      intro x hx
      rcases List.mem_cons.1 hx with rfl | hx
      · exact hpd
      · exact ih.1 hv x hx
    · intro h
      have h1 : Matches (RegExp.cls p) [c] := Matches.cls p c (h c (List.mem_cons_self c cs))
      have h2 : Matches (RegExp.star (RegExp.cls p)) cs :=
        ih.2 (fun x hx => h x (List.mem_cons_of_mem c hx))
      exact Matches.starCons _ [c] cs h1 h2

theorem Matches.plus_nonSpace_iff (cs : List Char) :
    Matches (RegExp.plus nonSpace) cs ↔ NonSpaceRun cs := by
  simp only [RegExp.plus, nonSpace, Matches.cat_iff, Matches.cls_iff, Matches.star_cls_iff,
    NonSpaceRun, Bool.not_eq_true']
  constructor
  · rintro ⟨u, v, rfl, ⟨c, rfl, hc⟩, hv⟩
    refine ⟨by simp, ?_⟩
    intro x hx
    rcases List.mem_cons.1 hx with rfl | hx
    · exact hc
    · exact hv x hx
  · rintro ⟨hne, h⟩
    cases cs with
    | nil => exact absurd rfl hne
    | cons c cs =>
      exact ⟨[c], cs, rfl, ⟨c, rfl, h c (List.mem_cons_self c cs)⟩,
        fun x hx => h x (List.mem_cons_of_mem c hx)⟩

theorem Matches.chr_iff (c : Char) (cs : List Char) :
    Matches (RegExp.chr c) cs ↔ cs = [c] := by
  simp only [RegExp.chr, Matches.cls_iff, beq_iff_eq]
  constructor
  · rintro ⟨d, rfl, rfl⟩
    rfl
  · rintro rfl
    exact ⟨c, rfl, rfl⟩

theorem Matches.emailRegex_iff (cs : List Char) : Matches emailRegex cs ↔ EmailShape cs := by
  simp only [emailRegex, Matches.cat_iff, Matches.plus_nonSpace_iff, Matches.chr_iff, EmailShape]
  constructor
  · rintro ⟨a, _, rfl, ha, _, _, rfl, rfl, b, _, rfl, hb, _, c, rfl, rfl, hc⟩
    exact ⟨a, b, c, by simp, ha, hb, hc⟩
  · rintro ⟨a, b, c, rfl, ha, hb, hc⟩
    exact ⟨a, _, rfl, ha, ['@'], _, rfl, rfl, b, _, rfl, hb, ['.'], c, rfl, rfl, hc⟩

theorem emailRegex_test_iff (s : String) :
    emailRegex.test s = true ↔ ContainsEmailShape s.data := by
  simp only [RegExp.test, searchFrom_iff, Matches.emailRegex_iff, ContainsEmailShape]

theorem emailRegex_test_false_iff (s : String) :
    emailRegex.test s = false ↔ ¬ ContainsEmailShape s.data := by
  rw [← emailRegex_test_iff]
  simp

/-- A string that has the shape `EmailShape` as a whole holds no white space. -/
theorem EmailShape.no_space {cs : List Char} (h : EmailShape cs) (x : Char) (hx : x ∈ cs) :
    isJSWhiteSpace x = false := by
  obtain ⟨a, b, c, rfl, ha, hb, hc⟩ := h
  simp only [List.mem_append, List.mem_cons] at hx
  rcases hx with hx | rfl | hx | rfl | hx
  · exact ha.2 x hx
  · decide
  · exact hb.2 x hx
  · decide
  · exact hc.2 x hx

/-! ## The validation ruleset -/

/-- C1: `validate` returns the empty mapping if and only if fullName is
non-empty, email is non-empty and passes the format check, surveyTopic is
non-empty, the fields of the block of the selected topic are non-empty (and
under "Technology" yearsOfExperience is numeric and greater than zero), and
feedback has at least 10 characters; the sample Health form of the
specification gives the empty mapping. -/
theorem validate_empty_iff_all_rules :
    (∀ values : JSObject,
      validate values = [] ↔
        Filled (values.get "fullName") ∧
        (Filled (values.get "email") ∧ emailRegex.test (toStr (values.get "email")) = true) ∧
        Filled (values.get "surveyTopic") ∧
        (values.get "surveyTopic" = some "Technology" →
          Filled (values.get "favoriteLanguage") ∧ Filled (values.get "yearsOfExperience") ∧
          (toNumLit (values.get "yearsOfExperience")).isNaN = false ∧
          (toNumLit (values.get "yearsOfExperience")).gtZero = true) ∧
        (values.get "surveyTopic" = some "Health" →
          Filled (values.get "exerciseFrequency") ∧ Filled (values.get "dietPreference")) ∧
        (values.get "surveyTopic" = some "Education" →
          Filled (values.get "highestQualification") ∧ Filled (values.get "fieldOfStudy")) ∧
        HasLengthAtLeast (values.get "feedback") 10) ∧
    validate [("fullName", "A"), ("email", "a@b.com"), ("surveyTopic", "Health"),
      ("exerciseFrequency", "Daily"), ("dietPreference", "Vegan"),
      ("feedback", "1234567890")] = [] :=
  ⟨validate_eq_nil_iff, by decide⟩

/-- C2: every key of the mapping returned by `validate` is one of fullName,
email, surveyTopic, feedback, or a field of the block of the selected
surveyTopic; so under "Health" there is no entry for favoriteLanguage or
yearsOfExperience, and under an empty or unrecognised topic only the four
universal keys can occur. -/
theorem validate_no_entry_outside_active_topic (values : JSObject) :
    (∀ k ∈ (validate values).keys,
      k ∈ ["fullName", "email", "surveyTopic", "feedback"] ∨
      (values.get "surveyTopic" = some "Technology" ∧
        k ∈ ["favoriteLanguage", "yearsOfExperience"]) ∨
      (values.get "surveyTopic" = some "Health" ∧
        k ∈ ["exerciseFrequency", "dietPreference"]) ∨
      (values.get "surveyTopic" = some "Education" ∧
        k ∈ ["highestQualification", "fieldOfStudy"])) ∧
    (values.get "surveyTopic" = some "Health" →
      "favoriteLanguage" ∉ (validate values).keys ∧
      "yearsOfExperience" ∉ (validate values).keys) ∧
    (values.get "surveyTopic" ≠ some "Technology" → values.get "surveyTopic" ≠ some "Health" →
      values.get "surveyTopic" ≠ some "Education" →
      ∀ k ∈ (validate values).keys, k ∈ ["fullName", "email", "surveyTopic", "feedback"]) := by
  refine ⟨validate_keys values, ?_, ?_⟩
  · intro hH
    constructor
    · intro hk
      have := validate_keys values _ hk
      simp [hH] at this
    · intro hk
      have := validate_keys values _ hk
      simp [hH] at this
  · intro hT hH hE k hk
    have := validate_keys values k hk
    simpa [hT, hH, hE] using this

/-- C3: under surveyTopic "Technology" with a non-empty yearsOfExperience,
`validate` reports the positive-number message exactly when the string is not
a number or its number is at most zero, has no yearsOfExperience entry exactly
when its number is greater than zero, and "0" yields the error. -/
theorem validate_yearsOfExperience_positive (values : JSObject) (s : String)
    (hT : values.get "surveyTopic" = some "Technology")
    (hy : values.get "yearsOfExperience" = some s) (hs : s ≠ "") :
    ((validate values).get "yearsOfExperience" =
        some "Years of Experience must be a positive number" ↔
      (stringToNumLit s).isNaN = true ∨ (stringToNumLit s).leZero = true) ∧
    ((validate values).get "yearsOfExperience" = none ↔ (stringToNumLit s).gtZero = true) ∧
    (s = "0" → (validate values).get "yearsOfExperience" =
      some "Years of Experience must be a positive number") := by
  have ht : truthy (some s) = true := by simp [truthy, hs]
  have key := validate_get_yearsOfExperience values
  simp only [hT, hy, ht, if_true, Bool.true_eq_false, if_false, toNumLit] at key
  rw [key, NumLit.gtZero_iff]
  refine ⟨?_, ?_, ?_⟩
  · by_cases h : (stringToNumLit s).isNaN = true ∨ (stringToNumLit s).leZero = true
    · simp [h]
    · simp [h]
  · by_cases h : (stringToNumLit s).isNaN = true ∨ (stringToNumLit s).leZero = true
    · simp only [h, if_true, reduceCtorEq, false_iff]
      rcases h with h | h <;> simp [h]
    · simp only [h, if_false, true_iff]
      simpa using h
  · rintro rfl
    decide

/-- Witness of C3 on the form with topic "Technology" and yearsOfExperience "0". -/
theorem validate_yearsOfExperience_positive_witness :
    (validate [("surveyTopic", "Technology"), ("yearsOfExperience", "0")]).get
      "yearsOfExperience" = some "Years of Experience must be a positive number" :=
  (validate_yearsOfExperience_positive
    [("surveyTopic", "Technology"), ("yearsOfExperience", "0")] "0" rfl rfl (by decide)).2.2 rfl

/-- C4, as stated, fails: the email "a@b.c d" is non-empty and as a whole does
not have the shape (it holds a space), yet `validate` has no email entry,
because the pattern is not anchored and matches the part "a@b.c". -/
theorem email_with_space_is_accepted :
    Filled (JSObject.get [("email", "a@b.c d")] "email") ∧
    ¬ EmailShape "a@b.c d".data ∧
    (validate [("email", "a@b.c d")]).get "email" = none := by
  refine ⟨⟨"a@b.c d", rfl, by decide⟩, ?_, by decide⟩
  intro h
  have hsp := h.no_space ' ' (by decide)
  revert hsp
  decide

/-- C4, amended: for a non-empty email, `validate` reports 'Email is invalid'
exactly when no contiguous part of the email has the shape non-space run, `@`,
non-space run, `.`, non-space run, and has no email entry exactly when some
part has that shape. -/
theorem validate_email_invalid_iff (values : JSObject) (s : String)
    (he : values.get "email" = some s) (hs : s ≠ "") :
    ((validate values).get "email" = some "Email is invalid" ↔ ¬ ContainsEmailShape s.data) ∧
    ((validate values).get "email" = none ↔ ContainsEmailShape s.data) := by
  have ht : truthy (some s) = true := by simp [truthy, hs]
  have key := validate_get_email values
  simp only [he, ht, Bool.true_eq_false, if_false, toStr] at key
  rw [key, ← emailRegex_test_iff]
  cases h : emailRegex.test s <;> simp

/-- Witness of the amended C4 on the email "a@b.c d". -/
theorem validate_email_invalid_iff_witness :
    (validate [("email", "a@b.c d")]).get "email" = none ↔
      ContainsEmailShape "a@b.c d".data :=
  (validate_email_invalid_iff [("email", "a@b.c d")] "a@b.c d" rfl (by decide)).2

/-- C5: the feedback entry is 'Feedback is required' when feedback is empty,
the length message when feedback is non-empty with fewer than 10 characters
(so for "short"), and absent when feedback has 10 or more characters (so for
"1234567890"). Characters are counted as `.length` does, in UTF-16 code units. -/
theorem validate_feedback_entry (values : JSObject) :
    (¬ Filled (values.get "feedback") →
      (validate values).get "feedback" = some "Feedback is required") ∧
    (∀ s, values.get "feedback" = some s → s ≠ "" → jsLength s < 10 →
      (validate values).get "feedback" =
        some "Feedback must be at least 10 characters long") ∧
    (∀ s, values.get "feedback" = some s → 10 ≤ jsLength s →
      (validate values).get "feedback" = none) ∧
    (values.get "feedback" = some "short" →
      (validate values).get "feedback" =
        some "Feedback must be at least 10 characters long") ∧
    (values.get "feedback" = some "1234567890" →
      (validate values).get "feedback" = none) := by
  have key := validate_get_feedback values
  have hlow : ∀ s, values.get "feedback" = some s → s ≠ "" → jsLength s < 10 →
      (validate values).get "feedback" =
        some "Feedback must be at least 10 characters long" := by
    intro s h hs hl
    have ht : truthy (some s) = true := by simp [truthy, hs]
    simp only [h, ht, Bool.true_eq_false, if_false, lengthOf, hl, if_true] at key
    exact key
  have hhigh : ∀ s, values.get "feedback" = some s → 10 ≤ jsLength s →
      (validate values).get "feedback" = none := by
    intro s h hl
    have hs : s ≠ "" := by
      rintro rfl
      rw [jsLength_empty] at hl
      omega
    have ht : truthy (some s) = true := by simp [truthy, hs]
    have hl' : ¬ jsLength s < 10 := by omega
    simp only [h, ht, Bool.true_eq_false, if_false, lengthOf, hl'] at key
    exact key
  refine ⟨?_, hlow, hhigh, ?_, ?_⟩
  · intro h
    rw [key, (truthy_false_iff _).2 h]
    rfl
  · intro h
    exact hlow "short" h (by decide) (by decide)
  · intro h
    exact hhigh "1234567890" h (by decide)

/-- C6: an empty validated field reports its 'is required' message and not a
secondary one: an empty email gives 'Email is required', an empty feedback
gives 'Feedback is required', under "Technology" an empty yearsOfExperience
gives 'Years of Experience is required'; likewise for the fields that have a
single rule. -/
theorem validate_empty_field_reports_required (values : JSObject) :
    (¬ Filled (values.get "email") →
      (validate values).get "email" = some "Email is required" ∧
      (validate values).get "email" ≠ some "Email is invalid") ∧
    (¬ Filled (values.get "feedback") →
      (validate values).get "feedback" = some "Feedback is required" ∧
      (validate values).get "feedback" ≠
        some "Feedback must be at least 10 characters long") ∧
    (values.get "surveyTopic" = some "Technology" →
      ¬ Filled (values.get "yearsOfExperience") →
      (validate values).get "yearsOfExperience" = some "Years of Experience is required" ∧
      (validate values).get "yearsOfExperience" ≠
        some "Years of Experience must be a positive number") ∧
    (¬ Filled (values.get "fullName") →
      (validate values).get "fullName" = some "Full Name is required") ∧
    (¬ Filled (values.get "surveyTopic") →
      (validate values).get "surveyTopic" = some "Survey Topic is required") ∧
    (values.get "surveyTopic" = some "Technology" →
      ¬ Filled (values.get "favoriteLanguage") →
      (validate values).get "favoriteLanguage" =
        some "Favorite Programming Language is required") ∧
    (values.get "surveyTopic" = some "Health" →
      ¬ Filled (values.get "exerciseFrequency") →
      (validate values).get "exerciseFrequency" = some "Exercise Frequency is required") ∧
    (values.get "surveyTopic" = some "Health" →
      ¬ Filled (values.get "dietPreference") →
      (validate values).get "dietPreference" = some "Diet Preference is required") ∧
    (values.get "surveyTopic" = some "Education" →
      ¬ Filled (values.get "highestQualification") →
      (validate values).get "highestQualification" =
        some "Highest Qualification is required") ∧
    (values.get "surveyTopic" = some "Education" →
      ¬ Filled (values.get "fieldOfStudy") →
      (validate values).get "fieldOfStudy" = some "Field of Study is required") := by
  refine ⟨?_, ?_, ?_, ?_, ?_, ?_, ?_, ?_, ?_, ?_⟩
  · intro h
    rw [validate_get_email, (truthy_false_iff _).2 h]
    simp
  · intro h
    rw [validate_get_feedback, (truthy_false_iff _).2 h]
    simp
  · intro hT h
    rw [validate_get_yearsOfExperience, (truthy_false_iff _).2 h]
    simp [hT]
  · intro h
    simp [validate, JSObject.get_ite, JSObject.get_set, JSObject.get_nil,
      (truthy_false_iff _).2 h]
  · intro h
    simp [validate, JSObject.get_ite, JSObject.get_set, JSObject.get_nil,
      (truthy_false_iff _).2 h]
  · intro hT h
    simp [validate, JSObject.get_ite, JSObject.get_set, JSObject.get_nil,
      (truthy_false_iff _).2 h, hT]
  · intro hT h
    simp [validate, JSObject.get_ite, JSObject.get_set, JSObject.get_nil,
      (truthy_false_iff _).2 h, hT]
  · intro hT h
    simp [validate, JSObject.get_ite, JSObject.get_set, JSObject.get_nil,
      (truthy_false_iff _).2 h, hT]
  · intro hT h
    simp [validate, JSObject.get_ite, JSObject.get_set, JSObject.get_nil,
      (truthy_false_iff _).2 h, hT]
  · intro hT h
    simp [validate, JSObject.get_ite, JSObject.get_set, JSObject.get_nil,
      (truthy_false_iff _).2 h, hT]

/-! ## The form state and the submission lifecycle -/

theorem handleSubmit_accepts_iff (f : FormState) :
    (handleSubmit f).2 = true ↔ validate f.values = [] := by
  simp [handleSubmit, JSObject.keys]

theorem formRun_append (f : FormState) (es1 es2 : List FormEvent) :
    formRun f (es1 ++ es2) = formRun (formRun f es1) es2 := by
  simp [formRun, List.foldl_append]

theorem formRun_errors_of_no_submit (es : List FormEvent) (f : FormState)
    (h : FormEvent.submit ∉ es) : (formRun f es).errors = f.errors := by
  induction es generalizing f with
  | nil => rfl
  | cons e es ih =>
    have h1 : FormEvent.submit ∉ es := fun hm => h (List.mem_cons_of_mem e hm)
    have h2 : e ≠ FormEvent.submit := fun he => h (he ▸ List.mem_cons_self e es)
    show (formRun (formStep f e) es).errors = f.errors
    rw [ih _ h1]
    cases e with
    | change name value => rfl
    | submit => exact absurd rfl h2

theorem runEffect_form (prev : Option (Nat × JSObject)) (s : State) :
    (runEffect prev s).form = s.form := by
  unfold runEffect
  split
  · rfl
  · split <;> rfl

theorem runEffect_submittedData (prev : Option (Nat × JSObject)) (s : State) :
    (runEffect prev s).submittedData = s.submittedData := by
  unfold runEffect
  split
  · rfl
  · split <;> simp [*]

theorem runEffect_isPopupOpen (prev : Option (Nat × JSObject)) (s : State) :
    (runEffect prev s).isPopupOpen = s.isPopupOpen := by
  unfold runEffect
  split
  · rfl
  · split <;> rfl

theorem runEffect_additionalQuestions (prev : Option (Nat × JSObject)) (s : State) :
    (runEffect prev s).additionalQuestions = s.additionalQuestions := by
  unfold runEffect
  split
  · rfl
  · split <;> rfl

theorem runEffect_pending_of_none (prev : Option (Nat × JSObject)) (s : State)
    (h : s.submittedData = none) : (runEffect prev s).pending = s.pending := by
  unfold runEffect
  split
  · rfl
  · split
    · simp_all
    · rfl

theorem runEffect_pending_of_same (prev : Option (Nat × JSObject)) (s : State)
    (h : s.submittedData.map Prod.fst = prev.map Prod.fst) :
    (runEffect prev s).pending = s.pending := by
  unfold runEffect
  rw [if_pos h]

theorem runEffect_pending_of_changed (prev : Option (Nat × JSObject)) (s : State)
    (d : Nat × JSObject) (hd : s.submittedData = some d)
    (h : ¬ s.submittedData.map Prod.fst = prev.map Prod.fst) :
    (runEffect prev s).pending = s.pending ++ [toStr (d.2.get "surveyTopic")] := by
  unfold runEffect
  rw [if_neg h]
  split
  · rename_i d' hd'
    rw [hd] at hd'
    cases hd'
    rfl
  · rename_i hn
    rw [hd] at hn
    cases hn

theorem onSubmit_accepted (s : State) (h : (handleSubmit s.form).2 = true) :
    onSubmit s = runEffect s.submittedData
      { s with form := (handleSubmit s.form).1,
               submittedData := some (s.form.valuesRef, s.form.values) } := by
  unfold onSubmit
  simp only [h, if_true]

theorem onSubmit_rejected (s : State) (h : (handleSubmit s.form).2 = false) :
    onSubmit s = runEffect s.submittedData { s with form := (handleSubmit s.form).1 } := by
  unfold onSubmit
  simp only [h, Bool.false_eq_true, if_false]

/-- C7, as stated, fails: after a valid form was submitted once, a second
submit of the same `values` object is accepted and stores the snapshot, but no
request is issued (the dependency `submittedData` of the effect is unchanged). -/
theorem resubmit_issues_no_fetch :
    (handleSubmit submittedOnce.form).2 = true ∧
    (onSubmit submittedOnce).submittedData =
      some (submittedOnce.form.valuesRef, submittedOnce.form.values) ∧
    submittedOnce.pending = ["Health"] ∧
    (onSubmit submittedOnce).pending = ["Health"] := by
  decide

/-- C7, amended: a submit is accepted exactly when `validate values` is the
empty mapping, and publishes `validate values` as the errors; when accepted,
`submittedData` holds the current `values` object and a request for the
snapshot's surveyTopic is issued unless that very object is already the stored
snapshot (so a request for "Technology" on a clean Technology form with no
snapshot held); when rejected, `submittedData` and the outstanding requests
stay as they were. -/
theorem onSubmit_outcome (s : State) :
    ((handleSubmit s.form).2 = true ↔ validate s.form.values = []) ∧
    (onSubmit s).form.errors = validate s.form.values ∧
    ((handleSubmit s.form).2 = true →
      (onSubmit s).submittedData = some (s.form.valuesRef, s.form.values) ∧
      (onSubmit s).pending =
        if s.submittedData.map Prod.fst = some s.form.valuesRef then s.pending
        else s.pending ++ [toStr (s.form.values.get "surveyTopic")]) ∧
    ((handleSubmit s.form).2 = true → s.submittedData = none →
      s.form.values.get "surveyTopic" = some "Technology" →
      (onSubmit s).pending = s.pending ++ ["Technology"]) ∧
    ((handleSubmit s.form).2 = false →
      (onSubmit s).submittedData = s.submittedData ∧ (onSubmit s).pending = s.pending) := by
  refine ⟨handleSubmit_accepts_iff s.form, ?_, ?_, ?_, ?_⟩
  · cases h : (handleSubmit s.form).2
    · rw [onSubmit_rejected s h, runEffect_form]
      rfl
    · rw [onSubmit_accepted s h, runEffect_form]
      rfl
  · intro h
    rw [onSubmit_accepted s h, runEffect_submittedData]
    refine ⟨rfl, ?_⟩
    by_cases hc : s.submittedData.map Prod.fst = some s.form.valuesRef
    · rw [if_pos hc, runEffect_pending_of_same _ _ (by simpa using hc.symm)]
    · rw [if_neg hc, runEffect_pending_of_changed _ _ _ rfl
        (by simpa using fun h' : some s.form.valuesRef = _ => hc h'.symm)]
  · intro h hn hT
    rw [onSubmit_accepted s h, runEffect_pending_of_changed _ _ _ rfl (by simp [hn])]
    simp [hT, toStr]
  · intro h
    rw [onSubmit_rejected s h, runEffect_submittedData]
    exact ⟨rfl, runEffect_pending_of_same _ _ rfl⟩

/-- C8: from the initial form state, after any sequence of field updates and
submits the errors are `validate` of the values as they were at the most
recent submit, and the empty mapping if there was no submit; a field update
sets the named field only and leaves the other fields and the errors as they
were; a submit replaces the errors by `validate values` and leaves the values. -/
theorem errors_are_validate_of_last_submit (es1 es2 : List FormEvent)
    (h : FormEvent.submit ∉ es2) :
    (formRun initialForm es2).errors = [] ∧
    (formRun initialForm (es1 ++ FormEvent.submit :: es2)).errors =
      validate (formRun initialForm es1).values ∧
    (∀ (f : FormState) (name value : String),
      (handleChange f name value).values.get name = some value ∧
      (∀ k, k ≠ name → (handleChange f name value).values.get k = f.values.get k) ∧
      (handleChange f name value).errors = f.errors) ∧
    (∀ f : FormState,
      (handleSubmit f).1.errors = validate f.values ∧ (handleSubmit f).1.values = f.values) := by
  refine ⟨?_, ?_, ?_, ?_⟩
  · rw [formRun_errors_of_no_submit es2 _ h]
    rfl
  · rw [formRun_append]
    show (formRun (formStep _ FormEvent.submit) es2).errors = _
    rw [formRun_errors_of_no_submit es2 _ h]
    rfl
  · intro f name value
    refine ⟨?_, ?_, rfl⟩
    · simp [handleChange, JSObject.get_set]
    · intro k hk
      have hk' : ¬ name = k := fun h' => hk h'.symm
      simp [handleChange, JSObject.get_set, hk']
  · intro f
    exact ⟨rfl, rfl⟩

/-- Witness of C8: an invalid submit followed by two edits. -/
theorem errors_are_validate_of_last_submit_witness :
    (formRun initialForm
      ([FormEvent.change "fullName" "A"] ++ FormEvent.submit ::
        [FormEvent.change "email" "a@b.com", FormEvent.change "feedback" "0123456789"])).errors =
      validate (formRun initialForm [FormEvent.change "fullName" "A"]).values :=
  (errors_are_validate_of_last_submit [FormEvent.change "fullName" "A"]
    [FormEvent.change "email" "a@b.com", FormEvent.change "feedback" "0123456789"]
    (by decide)).2.1

/-- C9, as stated, fails: after an accepted submit whose request resolved with
one question, `closePopup` leaves that question in `additionalQuestions`. -/
theorem closePopup_keeps_questions :
    (handleSubmit (run initialState fillHealthForm).form).2 = true ∧
    popupShown.isPopupOpen = true ∧
    (closePopup popupShown).additionalQuestions = ["Q1"] := by
  decide

/-- C9, amended: in every state, `closePopup` leaves the popup not visible and
holds no snapshot, and leaves `additionalQuestions`, the form and the
outstanding requests exactly as they were. -/
theorem closePopup_clears_submission (s : State) :
    (closePopup s).isPopupOpen = false ∧
    (closePopup s).submittedData = none ∧
    (closePopup s).additionalQuestions = s.additionalQuestions ∧
    (closePopup s).form = s.form ∧
    (closePopup s).pending = s.pending := by
  unfold closePopup
  exact ⟨by rw [runEffect_isPopupOpen], by rw [runEffect_submittedData],
    by rw [runEffect_additionalQuestions], by rw [runEffect_form],
    by rw [runEffect_pending_of_none _ _ rfl]⟩

/-- C10, the failing trace: two submits with an edit in between, the first
request resolves and the popup is closed; when the second request resolves the
popup is visible again although no snapshot is held. -/
theorem stale_fetch_reopens_popup :
    (run initialState staleFetchTrace.dropLast).isPopupOpen = false ∧
    (run initialState staleFetchTrace).isPopupOpen = true ∧
    (run initialState staleFetchTrace).submittedData = none ∧
    renderPopup (run initialState staleFetchTrace) = none := by
  decide

end SurveyForm
